import Mathlib

/-!
Verification of the process-isolated PAM authentication subsystem
(crate pam-sandboxed).  The only Rust source present is
src/pam/src/lib.rs, whose public item is the function test_mode; the
other modules (crate::pam, crate::pamclient, crate::pamserver,
crate::stream_channel) are declared there but their bodies are absent,
so their behaviour is modelled from the design specification and each
such definition says so in its doc comment.
-/

/-! ## Process state and the TEST_MODE flag (src/pam/src/lib.rs) -/

/-- The observable state of one OS process running this program.
`testModeFlag` embeds the process-wide atomic `TEST_MODE` cell (an
atomic integer in `crate::pam`, stored with `Ordering::SeqCst`).
`ioEvents` records the I/O operations the process has performed and
`spawned` the child processes it has created; `rest` stands for every
other component of the program state (pending table, channel buffers,
and so on), kept abstract as a type parameter. -/
structure ProcState (α : Type) where
  testModeFlag : Nat
  ioEvents : List Nat
  spawned : List Nat
  rest : α
deriving Repr

/-- Embedding of `pub fn test_mode(enabled: bool)` from
src/pam/src/lib.rs: it computes `getal = if enabled { 1 } else { 0 }`
and stores it into `TEST_MODE`; nothing else in the body touches any
other state. -/
def test_mode {α : Type} (enabled : Bool) (s : ProcState α) : ProcState α :=
  { s with testModeFlag := if enabled then 1 else 0 }

/-- `Modelled from the spec:` the initial value of the `TEST_MODE`
atomic (defined in the missing module `crate::pam`).  The spec calls
the mode flag "a process-wide boolean" that is "intended for test
builds only", so it starts disabled, i.e. `0`. -/
def TEST_MODE_init : Nat := 0

/-- Apply a finite sequence of `test_mode` calls, oldest first. -/
def applyCalls {α : Type} (calls : List Bool) (s : ProcState α) : ProcState α :=
  calls.foldl (fun st b => test_mode b st) s

/-- How the Auth Engine binding reads the flag: the stored cell is
compared against zero (stub mode is on exactly when the cell is 1,
the only nonzero value ever stored). -/
def stubModeOn {α : Type} (s : ProcState α) : Bool :=
  s.testModeFlag != 0

/-! ## Auth error taxonomy and the deterministic stub engine -/

/-- Semantic error kinds produced by the Auth Engine, one per legacy
engine status code (spec §7). -/
inductive AuthErrorKind where
  | wrongCredential
  | accountExpired
  | credentialExpired
  | permissionDenied
  | userUnknown
  | tooManyAttempts
  | aborted
  | unknownFailure
deriving DecidableEq, Repr

/-- Transport-level error kinds (spec §7). -/
inductive TransportErrorKind where
  | channelClosed
  | framingError
  | processSpawnFailed
  | backendCrashed
  | backendUnavailable
deriving DecidableEq, Repr

/-- `Modelled from the spec:` the deterministic stub engine (its body
lives in the missing module `crate::pam`).  The spec fixes the stub
rule as "secret == 'correctpass' → success, else WrongCredential". -/
def stubAuthenticate (service user secret : String)
    (conversation_responses : List String) : Except AuthErrorKind Unit :=
  if secret = "correctpass" then .ok () else .error .wrongCredential

/-- `Modelled from the spec:` the Auth Engine binding dispatches on the
mode flag at the moment it is about to execute a call: flag `1` selects
the deterministic stub engine, otherwise the real legacy engine (passed
in here as the opaque collaborator `real`). -/
def authEngineCall
    (real : String → String → String → List String → Except AuthErrorKind Unit)
    (flag : Nat) (service user secret : String)
    (conversation_responses : List String) : Except AuthErrorKind Unit :=
  if flag = 1 then stubAuthenticate service user secret conversation_responses
  else real service user secret conversation_responses

/-! ## Framed Channel wire format (crate::stream_channel, modelled) -/

/-- `Modelled from the spec:` little-endian fixed-width integer
serialization used by the envelope format of the missing module
`crate::stream_channel` (serde/bincode fixed byte order).  `w` bytes,
least significant first. -/
def toBytesLE : Nat → Nat → List Nat
  | 0, _ => []
  | w + 1, n => n % 256 :: toBytesLE w (n / 256)

/-- Read back a little-endian byte sequence as a natural number. -/
def fromBytesLE : List Nat → Nat
  | [] => 0
  | b :: bs => b + 256 * fromBytesLE bs

/-- Split off the first `w` bytes of a stream, failing if the stream
is shorter than `w`. -/
def takeBytes (w : Nat) (bs : List Nat) : Option (List Nat × List Nat) :=
  if w ≤ bs.length then some (bs.take w, bs.drop w) else none

/-- Parse a `w`-byte little-endian integer off the front of a stream. -/
def decodeNat (w : Nat) (bs : List Nat) : Option (Nat × List Nat) :=
  match takeBytes w bs with
  | none => none
  | some (hd, tl) => some (fromBytesLE hd, tl)

/-- `Modelled from the spec:` a string field on the wire is a
length-prefixed UTF-8 byte sequence: a 4-byte length then that many
bytes (the bytes themselves are modelled as the list of code units). -/
def encodeBytesField (s : List Nat) : List Nat :=
  toBytesLE 4 s.length ++ s

/-- Parse one length-prefixed byte-sequence field. -/
def decodeBytesField (bs : List Nat) : Option (List Nat × List Nat) :=
  match decodeNat 4 bs with
  | none => none
  | some (n, tl) => takeBytes n tl

/-- `Modelled from the spec:` `conversation_responses` is a
length-prefixed sequence of string fields. -/
def encodeFieldList (ss : List (List Nat)) : List Nat :=
  toBytesLE 4 ss.length ++ (ss.map encodeBytesField).flatten

/-- Parse `n` consecutive length-prefixed byte-sequence fields. -/
def decodeFields : Nat → List Nat → Option (List (List Nat) × List Nat)
  | 0, bs => some ([], bs)
  | n + 1, bs =>
    match decodeBytesField bs with
    | none => none
    | some (s, tl) =>
      match decodeFields n tl with
      | none => none
      | some (ss, tl2) => some (s :: ss, tl2)

/-- Parse a length-prefixed sequence of string fields. -/
def decodeFieldList (bs : List Nat) : Option (List (List Nat) × List Nat) :=
  match decodeNat 4 bs with
  | none => none
  | some (n, tl) => decodeFields n tl

/-- A `Request` envelope (spec §3): correlation id, service, user,
secret, and the ordered conversation responses.  String fields are
modelled as their wire byte sequences. -/
structure Request where
  id : Nat
  service : List Nat
  user : List Nat
  secret : List Nat
  conversation_responses : List (List Nat)
deriving DecidableEq, Repr

/-- The outcome a `Response` carries (spec §3):
`Ok(()) | Err(AuthErrorKind) | Err(TransportErrorKind)`. -/
inductive Outcome where
  | ok
  | authErr (k : AuthErrorKind)
  | transportErr (k : TransportErrorKind)
deriving DecidableEq, Repr

/-- A `Response` envelope (spec §3). -/
structure Response where
  id : Nat
  outcome : Outcome
deriving DecidableEq, Repr

/-- A channel envelope is one of `Request` or `Response`, self-tagged. -/
inductive Envelope where
  | request (r : Request)
  | response (r : Response)
deriving DecidableEq, Repr

/-- Numeric wire code of a semantic error kind. -/
def authErrCode : AuthErrorKind → Nat
  | .wrongCredential => 0
  | .accountExpired => 1
  | .credentialExpired => 2
  | .permissionDenied => 3
  | .userUnknown => 4
  | .tooManyAttempts => 5
  | .aborted => 6
  | .unknownFailure => 7

/-- Decode a semantic error kind from its wire code. -/
def decodeAuthErr (n : Nat) : Option AuthErrorKind :=
  match n with
  | 0 => some .wrongCredential
  | 1 => some .accountExpired
  | 2 => some .credentialExpired
  | 3 => some .permissionDenied
  | 4 => some .userUnknown
  | 5 => some .tooManyAttempts
  | 6 => some .aborted
  | 7 => some .unknownFailure
  | _ => none

/-- Numeric wire code of a transport error kind. -/
def transportErrCode : TransportErrorKind → Nat
  | .channelClosed => 0
  | .framingError => 1
  | .processSpawnFailed => 2
  | .backendCrashed => 3
  | .backendUnavailable => 4

/-- Decode a transport error kind from its wire code. -/
def decodeTransportErr (n : Nat) : Option TransportErrorKind :=
  match n with
  | 0 => some .channelClosed
  | 1 => some .framingError
  | 2 => some .processSpawnFailed
  | 3 => some .backendCrashed
  | 4 => some .backendUnavailable
  | _ => none

/-- Serialize an outcome: a one-byte variant tag, then for the error
variants a one-byte error code. -/
def encodeOutcome : Outcome → List Nat
  | .ok => [0]
  | .authErr k => [1, authErrCode k]
  | .transportErr k => [2, transportErrCode k]

/-- Parse an outcome off the front of a stream. -/
def decodeOutcome (bs : List Nat) : Option (Outcome × List Nat) :=
  match bs with
  | 0 :: tl => some (.ok, tl)
  | 1 :: c :: tl =>
    match decodeAuthErr c with
    | none => none
    | some k => some (.authErr k, tl)
  | 2 :: c :: tl =>
    match decodeTransportErr c with
    | none => none
    | some k => some (.transportErr k, tl)
  | _ => none

/-- `Modelled from the spec:` serialize a `Request` body: 8-byte id,
the three string fields, then the conversation-response sequence. -/
def encodeRequest (r : Request) : List Nat :=
  toBytesLE 8 r.id ++ encodeBytesField r.service ++ encodeBytesField r.user ++
    encodeBytesField r.secret ++ encodeFieldList r.conversation_responses

/-- Parse a `Request` body. -/
def decodeRequest (bs : List Nat) : Option (Request × List Nat) :=
  match decodeNat 8 bs with
  | none => none
  | some (i, t1) =>
    match decodeBytesField t1 with
    | none => none
    | some (sv, t2) =>
      match decodeBytesField t2 with
      | none => none
      | some (us, t3) =>
        match decodeBytesField t3 with
        | none => none
        | some (se, t4) =>
          match decodeFieldList t4 with
          | none => none
          | some (cr, t5) => some (⟨i, sv, us, se, cr⟩, t5)

/-- `Modelled from the spec:` serialize a `Response` body: 8-byte id,
then the outcome. -/
def encodeResponse (r : Response) : List Nat :=
  toBytesLE 8 r.id ++ encodeOutcome r.outcome

/-- Parse a `Response` body. -/
def decodeResponse (bs : List Nat) : Option (Response × List Nat) :=
  match decodeNat 8 bs with
  | none => none
  | some (i, t1) =>
    match decodeOutcome t1 with
    | none => none
    | some (o, t2) => some (⟨i, o⟩, t2)

/-- `Modelled from the spec:` serialize an envelope, self-tagged with a
leading variant byte (0 = Request, 1 = Response). -/
def encodeEnvelope : Envelope → List Nat
  | .request r => 0 :: encodeRequest r
  | .response r => 1 :: encodeResponse r

/-- Parse a self-tagged envelope. -/
def decodeEnvelope (bs : List Nat) : Option (Envelope × List Nat) :=
  match bs with
  | 0 :: tl =>
    match decodeRequest tl with
    | none => none
    | some (r, t) => some (.request r, t)
  | 1 :: tl =>
    match decodeResponse tl with
    | none => none
    | some (r, t) => some (.response r, t)
  | _ => none

/-- Every byte of the sequence is an actual octet and the sequence fits
behind a 4-byte length prefix. -/
def validField (s : List Nat) : Prop :=
  s.length < 2 ^ 32 ∧ ∀ b ∈ s, b < 256

/-- The representability conditions under which a `Request` is exactly
expressible on the wire: `u64` id, `u32` lengths, octet contents. -/
def validRequest (r : Request) : Prop :=
  r.id < 2 ^ 64 ∧ validField r.service ∧ validField r.user ∧
    validField r.secret ∧ r.conversation_responses.length < 2 ^ 32 ∧
    ∀ s ∈ r.conversation_responses, validField s

/-- The representability condition for a `Response`: `u64` id. -/
def validResponse (r : Response) : Prop := r.id < 2 ^ 64

/-- Representability of an envelope. -/
def validEnvelope : Envelope → Prop
  | .request r => validRequest r
  | .response r => validResponse r

/-- `Modelled from the spec:` one channel frame: a 4-byte unsigned
length prefix in the fixed byte order, then that many payload bytes. -/
def encodeFrame (payload : List Nat) : List Nat :=
  toBytesLE 4 payload.length ++ payload

/-- `Modelled from the spec:` the Framed Channel read operation on the
byte stream received before the peer closed it.  It fails with
`FramingError` when the stream ends before a complete frame is
available or the length prefix exceeds the sane maximum `maxLen`;
otherwise it returns the payload and the remaining stream. -/
def readFrame (maxLen : Nat) (bs : List Nat) :
    Except TransportErrorKind (List Nat × List Nat) :=
  match takeBytes 4 bs with
  | none => .error .framingError
  | some (hd, tl) =>
    let len := fromBytesLE hd
    if maxLen < len then .error .framingError
    else
      match takeBytes len tl with
      | none => .error .framingError
      | some (payload, tl2) => .ok (payload, tl2)

/-! ## Serialization lemmas -/

theorem toBytesLE_length (w : Nat) : ∀ n, (toBytesLE w n).length = w := by
  induction w with
  | zero => intro n; rfl
  | succ w ih => intro n; simp [toBytesLE, ih]

theorem fromBytesLE_toBytesLE (w : Nat) :
    ∀ n, n < 256 ^ w → fromBytesLE (toBytesLE w n) = n := by
  induction w with
  | zero => intro n h; interval_cases n; rfl
  | succ w ih =>
    intro n h
    have hdiv : n / 256 < 256 ^ w := by
      rw [Nat.div_lt_iff_lt_mul (by norm_num : 0 < 256)]
      calc n < 256 ^ (w + 1) := h
        _ = 256 ^ w * 256 := by ring
    simp only [toBytesLE, fromBytesLE, ih _ hdiv]
    exact Nat.mod_add_div n 256

theorem takeBytes_append (w : Nat) (bs rest : List Nat) (h : bs.length = w) :
    takeBytes w (bs ++ rest) = some (bs, rest) := by
  subst h
  simp [takeBytes, List.take_left, List.drop_left]

theorem decodeNat_encode (w n : Nat) (rest : List Nat) (h : n < 256 ^ w) :
    decodeNat w (toBytesLE w n ++ rest) = some (n, rest) := by
  simp [decodeNat, takeBytes_append w _ _ (toBytesLE_length w n),
    fromBytesLE_toBytesLE w n h]

theorem decodeBytesField_encode (s rest : List Nat) (h : s.length < 256 ^ 4) :
    decodeBytesField (encodeBytesField s ++ rest) = some (s, rest) := by
  simp only [encodeBytesField, List.append_assoc, decodeBytesField,
    decodeNat_encode 4 s.length (s ++ rest) h]
  exact takeBytes_append _ _ _ rfl

theorem decodeFields_encode (ss : List (List Nat)) (rest : List Nat)
    (h : ∀ s ∈ ss, s.length < 256 ^ 4) :
    decodeFields ss.length ((ss.map encodeBytesField).flatten ++ rest) =
      some (ss, rest) := by
  induction ss with
  | nil => rfl
  | cons s ss ih =>
    have hs : s.length < 256 ^ 4 := h s (List.mem_cons_self s ss)
    have hss : ∀ t ∈ ss, t.length < 256 ^ 4 := fun t ht => h t (List.mem_cons_of_mem s ht)
    simp only [List.map_cons, List.flatten_cons, List.length_cons, List.append_assoc]
    simp only [decodeFields, decodeBytesField_encode s _ hs, ih hss]

theorem decodeFieldList_encode (ss : List (List Nat)) (rest : List Nat)
    (hlen : ss.length < 256 ^ 4) (h : ∀ s ∈ ss, s.length < 256 ^ 4) :
    decodeFieldList (encodeFieldList ss ++ rest) = some (ss, rest) := by
  simp only [encodeFieldList, List.append_assoc, decodeFieldList,
    decodeNat_encode 4 ss.length _ hlen]
  exact decodeFields_encode ss rest h

theorem decodeOutcome_encode (o : Outcome) (rest : List Nat) :
    decodeOutcome (encodeOutcome o ++ rest) = some (o, rest) := by
  cases o with
  | ok => rfl
  | authErr k => cases k <;> rfl
  | transportErr k => cases k <;> rfl

theorem pow256_four : (256 : Nat) ^ 4 = 2 ^ 32 := by norm_num

theorem pow256_eight : (256 : Nat) ^ 8 = 2 ^ 64 := by norm_num

theorem decodeRequest_encode (r : Request) (rest : List Nat)
    (h : validRequest r) :
    decodeRequest (encodeRequest r ++ rest) = some (r, rest) := by
  obtain ⟨hid, hsv, hus, hse, hcrlen, hcr⟩ := h
  have hid8 : r.id < 256 ^ 8 := lt_of_lt_of_eq hid pow256_eight.symm
  have hsv4 : r.service.length < 256 ^ 4 := lt_of_lt_of_eq hsv.1 pow256_four.symm
  have hus4 : r.user.length < 256 ^ 4 := lt_of_lt_of_eq hus.1 pow256_four.symm
  have hse4 : r.secret.length < 256 ^ 4 := lt_of_lt_of_eq hse.1 pow256_four.symm
  have hcrlen4 : r.conversation_responses.length < 256 ^ 4 :=
    lt_of_lt_of_eq hcrlen pow256_four.symm
  have hcr4 : ∀ s ∈ r.conversation_responses, s.length < 256 ^ 4 :=
    fun s hs => lt_of_lt_of_eq (hcr s hs).1 pow256_four.symm
  simp only [encodeRequest, List.append_assoc, decodeRequest,
    decodeNat_encode 8 r.id _ hid8,
    decodeBytesField_encode _ _ hsv4,
    decodeBytesField_encode _ _ hus4,
    decodeBytesField_encode _ _ hse4,
    decodeFieldList_encode _ _ hcrlen4 hcr4]

theorem decodeResponse_encode (r : Response) (rest : List Nat)
    (h : validResponse r) :
    decodeResponse (encodeResponse r ++ rest) = some (r, rest) := by
  have hid8 : r.id < 256 ^ 8 := lt_of_lt_of_eq h pow256_eight.symm
  simp only [encodeResponse, List.append_assoc, decodeResponse,
    decodeNat_encode 8 r.id _ hid8, decodeOutcome_encode]

theorem decodeEnvelope_encode (e : Envelope) (rest : List Nat)
    (h : validEnvelope e) :
    decodeEnvelope (encodeEnvelope e ++ rest) = some (e, rest) := by
  cases e with
  | request r =>
    simp only [encodeEnvelope, List.cons_append, decodeEnvelope,
      decodeRequest_encode r rest h]
  | response r =>
    simp only [encodeEnvelope, List.cons_append, decodeEnvelope,
      decodeResponse_encode r rest h]

/-! ## Client Multiplexer id allocation (crate::pamclient, modelled) -/

/-- `Modelled from the spec:` the id-allocation state of the Client
Multiplexer (missing module `crate::pamclient`): a monotone fresh-id
counter and the ids of the currently pending requests. -/
structure MuxState where
  nextId : Nat
  pending : List Nat
deriving DecidableEq, Repr

/-- The multiplexer state right after `initialize`: nothing pending. -/
def initMux : MuxState := { nextId := 0, pending := [] }

/-- An event observable at the Pending table: an `auth` call allocates
a fresh id and inserts its entry; consuming a response (or abandoning
an entry) removes the entry with the given id. -/
inductive MuxEvent where
  | authCall
  | resolve (id : Nat)
deriving DecidableEq, Repr

/-- `Modelled from the spec:` one Pending-table transition.  `auth`
"allocates a fresh unique id, inserts a completion handle into the
Pending table"; the reader task "looks up and removes the Pending-table
entry by id". -/
def muxStep (s : MuxState) : MuxEvent → MuxState
  | .authCall => { nextId := s.nextId + 1, pending := s.nextId :: s.pending }
  | .resolve i => { s with pending := s.pending.erase i }

/-- Run a sequence of multiplexer events, oldest first. -/
def muxRun (evs : List MuxEvent) (s : MuxState) : MuxState :=
  evs.foldl muxStep s

/-- The id-allocation invariant: pending ids are pairwise distinct and
all below the fresh-id counter. -/
def muxInv (s : MuxState) : Prop :=
  s.pending.Nodup ∧ ∀ i ∈ s.pending, i < s.nextId

theorem muxInv_init : muxInv initMux := by
  constructor
  · exact List.nodup_nil
  · intro i hi; cases hi

theorem muxInv_step (s : MuxState) (e : MuxEvent) (h : muxInv s) :
    muxInv (muxStep s e) := by
  obtain ⟨hnd, hlt⟩ := h
  cases e with
  | authCall =>
    refine ⟨List.nodup_cons.mpr ⟨fun hc => lt_irrefl _ (hlt _ hc), hnd⟩, ?_⟩
    intro i hi
    rcases List.mem_cons.mp hi with h1 | h2
    · exact h1 ▸ Nat.lt_succ_self s.nextId
    · exact Nat.lt_succ_of_lt (hlt _ h2)
  | resolve j =>
    exact ⟨hnd.erase j, fun i hi => hlt i (List.mem_of_mem_erase hi)⟩

theorem muxInv_run (evs : List MuxEvent) :
    ∀ s, muxInv s → muxInv (muxRun evs s) := by
  induction evs with
  | nil => intro s h; exact h
  | cons e evs ih => intro s h; exact ih _ (muxInv_step s e h)

/-! ## Reader task: resolution, reordering, channel loss (modelled) -/

/-- `Modelled from the spec:` the caller-visible state of the parent's
reader task (missing module `crate::pamclient`): the ids still pending,
the log of resolutions delivered to callers so far (each resolution is
appended exactly when its completion handle fires), and whether the
reader has stopped (after which it attempts no further channel reads). -/
structure ClientState where
  pending : List Nat
  resolved : List (Nat × Outcome)
  readerStopped : Bool
deriving DecidableEq, Repr

/-- `Modelled from the spec:` the reader task consumes one decoded
`Response`: it looks up and removes the Pending-table entry by id and
resolves it with the carried outcome; a response whose id has no entry
is ignored.  Returns the new state and whether a channel read was
attempted at all (a stopped reader reads nothing). -/
def readerStep (s : ClientState) (resp : Nat × Outcome) : ClientState × Bool :=
  if s.readerStopped then (s, false)
  else if resp.1 ∈ s.pending then
    ({ s with pending := s.pending.erase resp.1,
              resolved := s.resolved ++ [resp] }, true)
  else (s, true)

/-- Feed a sequence of responses to the reader task in arrival order. -/
def processResponses (resps : List (Nat × Outcome)) (s : ClientState) :
    ClientState :=
  resps.foldl (fun st r => (readerStep st r).1) s

/-- `Modelled from the spec:` the reaction to the child leaving
`Running`: the reader task "drains the Pending table, resolving every
remaining entry with a transport 'backend unavailable' error, then
stops". -/
def onChannelLoss (s : ClientState) : ClientState :=
  { pending := [],
    resolved :=
      s.resolved ++ s.pending.map (fun i => (i, Outcome.transportErr .backendUnavailable)),
    readerStopped := true }

/-- A reader that has not stopped and is fed responses for distinct
pending ids resolves exactly those responses, in arrival order. -/
theorem processResponses_resolved (resps : List (Nat × Outcome)) :
    ∀ s : ClientState, s.readerStopped = false →
      (resps.map Prod.fst).Nodup →
      (∀ p ∈ resps, p.1 ∈ s.pending) →
      (processResponses resps s).resolved = s.resolved ++ resps := by
  induction resps with
  | nil => intro s _ _ _; simp [processResponses]
  | cons r rest ih =>
    intro s hstop hnd hmem
    have hr : r.1 ∈ s.pending := hmem r (List.mem_cons_self r rest)
    have hstep : (readerStep s r).1 =
        { s with pending := s.pending.erase r.1,
                 resolved := s.resolved ++ [r] } := by
      simp [readerStep, hstop, hr]
    have hnd2 : (r.1 :: rest.map Prod.fst).Nodup := hnd
    have hnd' := List.nodup_cons.mp hnd2
    have hchain : processResponses (r :: rest) s =
        processResponses rest ((readerStep s r).1) := rfl
    rw [hchain, hstep]
    have hres := ih { s with pending := s.pending.erase r.1,
                             resolved := s.resolved ++ [r] }
      (by simp [hstop]) hnd'.2 ?_
    · rw [hres]; simp
    · intro p hp
      have hne : p.1 ≠ r.1 := by
        intro hcontra
        exact hnd'.1 (hcontra ▸ List.mem_map_of_mem Prod.fst hp)
      simpa using (List.mem_erase_of_ne hne).mpr (hmem p (List.mem_cons_of_mem r hp))

/-- Filtering the drained resolutions of a duplicate-free pending list
for one pending id yields exactly one transport-error resolution. -/
theorem drainFilter (l : List Nat) (i : Nat) (hnd : l.Nodup) (hi : i ∈ l) :
    (l.map (fun j => (j, Outcome.transportErr TransportErrorKind.backendUnavailable))).filter
        (fun p => p.1 == i) =
      [(i, Outcome.transportErr TransportErrorKind.backendUnavailable)] := by
  induction l with
  | nil => cases hi
  | cons j l ih =>
    have hjl := List.nodup_cons.mp hnd
    rcases List.mem_cons.mp hi with rfl | hmem
    · simp only [List.map_cons, List.filter_cons, beq_self_eq_true, if_pos]
      congr 1
      rw [List.filter_eq_nil_iff]
      intro p hp
      obtain ⟨k, hk, rfl⟩ := List.mem_map.mp hp
      simp only [beq_iff_eq]
      exact fun hcontra => hjl.1 (hcontra ▸ hk)
    · have hji : j ≠ i := fun h => hjl.1 (h ▸ hmem)
      simp only [List.map_cons, List.filter_cons]
      rw [if_neg (by simp [hji]), ih hjl.2 hmem]

/-! ## Claim theorems -/

/-- Claim C1: for every boolean `enabled`, `test_mode enabled` stores 1
into the process-wide `TEST_MODE` flag when `enabled` is true and 0
when it is false, so the flag subsequently read by the Auth Engine
binding reflects exactly the boolean passed in the most recent call. -/
theorem test_mode_stores_exact_flag {α : Type} (enabled : Bool) (s : ProcState α) :
    (test_mode enabled s).testModeFlag = (if enabled then 1 else 0) ∧
    stubModeOn (test_mode enabled s) = enabled := by
  refine ⟨rfl, ?_⟩
  cases enabled <;> simp [stubModeOn, test_mode]

/-- Claim C8: after any finite sequence of `test_mode` calls starting
from a state whose flag already holds a boolean value (as the initial
`TEST_MODE` does), the flag holds only 0 or 1; no call stores any
other value. -/
theorem testModeFlag_boolean_valued {α : Type} (calls : List Bool) (s : ProcState α)
    (h : s.testModeFlag = 0 ∨ s.testModeFlag = 1) :
    (applyCalls calls s).testModeFlag = 0 ∨ (applyCalls calls s).testModeFlag = 1 := by
  induction calls generalizing s with
  | nil => exact h
  | cons b rest ih =>
    have hstep : (test_mode b s).testModeFlag = 0 ∨ (test_mode b s).testModeFlag = 1 := by
      cases b
      · exact Or.inl rfl
      · exact Or.inr rfl
    exact ih (test_mode b s) hstep

/-- Witness for C8 at a concrete call sequence from the initial flag. -/
theorem testModeFlag_boolean_valued_witness :
    (applyCalls [true, false, true]
        ({ testModeFlag := TEST_MODE_init, ioEvents := [], spawned := [],
           rest := () } : ProcState Unit)).testModeFlag = 0 ∨
    (applyCalls [true, false, true]
        ({ testModeFlag := TEST_MODE_init, ioEvents := [], spawned := [],
           rest := () } : ProcState Unit)).testModeFlag = 1 :=
  testModeFlag_boolean_valued [true, false, true] _ (Or.inl rfl)

/-- Claim C9: `test_mode` is last-write-wins and idempotent: a call
`test_mode b` after `test_mode a` leaves the whole process state
exactly as `test_mode b` alone would, and repeating the same argument
changes nothing. -/
theorem test_mode_last_write_wins {α : Type} (a b : Bool) (s : ProcState α) :
    test_mode b (test_mode a s) = test_mode b s ∧
    test_mode a (test_mode a s) = test_mode a s :=
  ⟨rfl, rfl⟩

/-- Claim C10: `test_mode` modifies only the `TEST_MODE` flag: it
performs no I/O, spawns no process, and leaves every other component
of the process state unchanged. -/
theorem test_mode_frame_effect {α : Type} (enabled : Bool) (s : ProcState α) :
    (test_mode enabled s).ioEvents = s.ioEvents ∧
    (test_mode enabled s).spawned = s.spawned ∧
    (test_mode enabled s).rest = s.rest :=
  ⟨rfl, rfl, rfl⟩

/-- Claim C2: with stub mode enabled, the engine call for
("other", "alice", "correctpass", []) succeeds and the one for
("other", "alice", "wrong", []) fails with WrongCredential; in general
the stub returns success exactly when the secret is "correctpass" and
WrongCredential otherwise. -/
theorem stub_engine_rule
    (real : String → String → String → List String → Except AuthErrorKind Unit)
    (flag : Nat) (h : flag = 1) :
    authEngineCall real flag "other" "alice" "correctpass" [] = .ok () ∧
    authEngineCall real flag "other" "alice" "wrong" [] = .error .wrongCredential ∧
    ∀ service user secret conv,
      (authEngineCall real flag service user secret conv = .ok () ↔
        secret = "correctpass") ∧
      (secret ≠ "correctpass" →
        authEngineCall real flag service user secret conv = .error .wrongCredential) := by
  subst h
  have hcall : ∀ service user secret conv,
      authEngineCall real 1 service user secret conv =
        stubAuthenticate service user secret conv := by
    intro service user secret conv
    unfold authEngineCall
    rw [if_pos rfl]
  refine ⟨?_, ?_, ?_⟩
  · rw [hcall]
    unfold stubAuthenticate
    rw [if_pos rfl]
  · rw [hcall]
    unfold stubAuthenticate
    rw [if_neg (by decide)]
  · intro service user secret conv
    constructor
    · rw [hcall]
      unfold stubAuthenticate
      by_cases hsec : secret = "correctpass"
      · rw [if_pos hsec]
        simp [hsec]
      · rw [if_neg hsec]
        exact ⟨(fun hcontra => nomatch hcontra), fun hcontra => absurd hcontra hsec⟩
    · intro hne
      rw [hcall]
      unfold stubAuthenticate
      rw [if_neg hne]

/-- Witness for C2 at the two concrete calls of the spec scenario. -/
theorem stub_engine_rule_witness :
    authEngineCall (fun _ _ _ _ => Except.error AuthErrorKind.unknownFailure) 1
        "other" "alice" "correctpass" [] = Except.ok () ∧
    authEngineCall (fun _ _ _ _ => Except.error AuthErrorKind.unknownFailure) 1
        "other" "alice" "wrong" [] = Except.error AuthErrorKind.wrongCredential :=
  ⟨(stub_engine_rule (fun _ _ _ _ => Except.error AuthErrorKind.unknownFailure) 1 rfl).1,
   (stub_engine_rule (fun _ _ _ _ => Except.error AuthErrorKind.unknownFailure) 1 rfl).2.1⟩

/-- Claim C3: encoding a Request or Response envelope and decoding the
resulting bytes yields the original value in all fields, with no
residual bytes. -/
theorem envelope_roundtrip (e : Envelope) (h : validEnvelope e) :
    decodeEnvelope (encodeEnvelope e) = some (e, []) := by
  have := decodeEnvelope_encode e [] h
  simpa using this

/-- Witness for C3 on one concrete Request and the validity checks. -/
theorem envelope_roundtrip_witness :
    decodeEnvelope (encodeEnvelope (Envelope.request ⟨5, [97], [98, 99], [100], [[101], []]⟩)) =
      some (Envelope.request ⟨5, [97], [98, 99], [100], [[101], []]⟩, []) :=
  envelope_roundtrip (Envelope.request ⟨5, [97], [98, 99], [100], [[101], []]⟩)
    (by unfold validEnvelope validRequest validField; refine ⟨?_, ?_, ?_, ?_, ?_, ?_⟩ <;> decide)

/-- Claim C4: the Framed Channel read fails with FramingError exactly
when the stream ends before a complete frame (fewer than 4 header
bytes, or fewer payload bytes than the prefix announces) or the length
prefix exceeds the sane maximum; it succeeds only on a full,
well-formed frame. -/
theorem readFrame_framing_spec (maxLen : Nat) (bs : List Nat) :
    ((∃ p r, readFrame maxLen bs = .ok (p, r)) ↔
      (4 ≤ bs.length ∧ fromBytesLE (bs.take 4) ≤ maxLen ∧
        4 + fromBytesLE (bs.take 4) ≤ bs.length)) ∧
    (¬(4 ≤ bs.length ∧ fromBytesLE (bs.take 4) ≤ maxLen ∧
        4 + fromBytesLE (bs.take 4) ≤ bs.length) →
      readFrame maxLen bs = .error .framingError) := by
  by_cases h4 : 4 ≤ bs.length
  · by_cases hmax : maxLen < fromBytesLE (bs.take 4)
    · have herr : readFrame maxLen bs = .error .framingError := by
        simp only [readFrame, takeBytes, if_pos h4, if_pos hmax]
      refine ⟨?_, fun _ => herr⟩
      rw [herr]
      simp only [reduceCtorEq, exists_false, false_iff, not_and]
      intro _ hle
      omega
    · by_cases hlen : fromBytesLE (bs.take 4) ≤ bs.length - 4
      · have hok : readFrame maxLen bs =
            .ok ((bs.drop 4).take (fromBytesLE (bs.take 4)),
                 (bs.drop 4).drop (fromBytesLE (bs.take 4))) := by
          simp only [readFrame, takeBytes, if_pos h4, if_neg hmax, List.length_drop,
            if_pos hlen]
        have hcond : 4 ≤ bs.length ∧ fromBytesLE (bs.take 4) ≤ maxLen ∧
            4 + fromBytesLE (bs.take 4) ≤ bs.length :=
          ⟨h4, le_of_not_lt hmax, by omega⟩
        exact ⟨⟨fun _ => hcond, fun _ => ⟨_, _, hok⟩⟩, fun hneg => absurd hcond hneg⟩
      · have herr : readFrame maxLen bs = .error .framingError := by
          simp only [readFrame, takeBytes, if_pos h4, if_neg hmax, List.length_drop,
            if_neg hlen]
        refine ⟨?_, fun _ => herr⟩
        rw [herr]
        simp only [reduceCtorEq, exists_false, false_iff, not_and]
        intro _ _
        omega
  · have herr : readFrame maxLen bs = .error .framingError := by
      simp only [readFrame, takeBytes, if_neg h4]
    refine ⟨?_, fun _ => herr⟩
    rw [herr]
    simp only [reduceCtorEq, exists_false, false_iff, not_and]
    intro hc
    exact absurd hc h4

/-- Witness for C4: a stream holding one complete two-byte frame under
the limit is read successfully. -/
theorem readFrame_framing_witness :
    ∃ p r, readFrame 100 [2, 0, 0, 0, 9, 9] = Except.ok (p, r) :=
  ((readFrame_framing_spec 100 [2, 0, 0, 0, 9, 9]).1).mpr (by decide)

/-- Claim C5: over the lifetime of one channel, after any sequence of
`auth` calls and resolutions, no two simultaneously pending requests
hold the same correlation id. -/
theorem pending_ids_unique (evs : List MuxEvent) :
    (muxRun evs initMux).pending.Nodup :=
  (muxInv_run evs initMux muxInv_init).1

/-- Claim C6: when the child leaves Running, the drain resolves every
still-pending entry with a TransportErrorKind exactly once, leaves
nothing pending, stops the reader, and a stopped reader attempts no
further channel reads. -/
theorem channel_loss_bulk_resolution (s : ClientState) (h : s.pending.Nodup) :
    (onChannelLoss s).pending = [] ∧
    (onChannelLoss s).readerStopped = true ∧
    (∀ i ∈ s.pending,
      ((onChannelLoss s).resolved.drop s.resolved.length).filter (fun p => p.1 == i) =
        [(i, Outcome.transportErr TransportErrorKind.backendUnavailable)]) ∧
    (∀ resp, (readerStep (onChannelLoss s) resp).2 = false) := by
  refine ⟨rfl, rfl, ?_, ?_⟩
  · intro i hi
    have hdrop : (onChannelLoss s).resolved.drop s.resolved.length =
        s.pending.map (fun j => (j, Outcome.transportErr TransportErrorKind.backendUnavailable)) := by
      simp [onChannelLoss]
    rw [hdrop]
    exact drainFilter s.pending i h hi
  · intro resp
    simp [readerStep, onChannelLoss]

/-- Witness for C6 on a concrete two-entry pending table. -/
theorem channel_loss_bulk_resolution_witness :
    (onChannelLoss ⟨[7, 8], [], false⟩).pending = [] ∧
    (onChannelLoss ⟨[7, 8], [], false⟩).readerStopped = true ∧
    (∀ i ∈ ([7, 8] : List Nat),
      ((onChannelLoss ⟨[7, 8], [], false⟩).resolved.drop
          ([] : List (Nat × Outcome)).length).filter (fun p => p.1 == i) =
        [(i, Outcome.transportErr TransportErrorKind.backendUnavailable)]) ∧
    (∀ resp, (readerStep (onChannelLoss ⟨[7, 8], [], false⟩) resp).2 = false) :=
  channel_loss_bulk_resolution ⟨[7, 8], [], false⟩ (by decide)

/-- Claim C7: for concurrently issued requests with distinct ids, under
any reordering of worker completions, each pending result resolves
with the outcome the engine produced for its own request id, never
another's. -/
theorem correlation_under_reordering (ids : List Nat) (out : Nat → Outcome)
    (resps : List (Nat × Outcome)) (hnd : ids.Nodup)
    (hperm : resps.Perm (ids.map (fun i => (i, out i)))) :
    (∀ i ∈ ids,
      (i, out i) ∈ (processResponses resps ⟨ids, [], false⟩).resolved) ∧
    (∀ p ∈ (processResponses resps ⟨ids, [], false⟩).resolved,
      p.2 = out p.1) := by
  have hmem : ∀ p ∈ resps, p ∈ ids.map (fun i => (i, out i)) :=
    fun p hp => hperm.mem_iff.mp hp
  have hfst : (resps.map Prod.fst).Perm ids := by
    have h1 := hperm.map Prod.fst
    have hc : (Prod.fst ∘ fun i : Nat => (i, out i)) = id := funext fun i => rfl
    rw [List.map_map, hc, List.map_id] at h1
    exact h1
  have hndf : (resps.map Prod.fst).Nodup := hfst.nodup_iff.mpr hnd
  have hpend : ∀ p ∈ resps, p.1 ∈ (⟨ids, [], false⟩ : ClientState).pending := by
    intro p hp
    obtain ⟨i, hi, rfl⟩ := List.mem_map.mp (hmem p hp)
    exact hi
  have hres := processResponses_resolved resps ⟨ids, [], false⟩ rfl hndf hpend
  constructor
  · intro i hi
    rw [hres]
    have : (i, out i) ∈ ids.map (fun j => (j, out j)) :=
      List.mem_map_of_mem _ hi
    simpa using hperm.mem_iff.mpr this
  · intro p hp
    rw [hres] at hp
    obtain ⟨i, _, rfl⟩ := List.mem_map.mp (hmem p (by simpa using hp))
    rfl

/-- Witness for C7: two requests whose completions arrive in reverse
order still resolve with their own outcomes. -/
theorem correlation_under_reordering_witness :
    (∀ i ∈ ([10, 11] : List Nat),
      (i, if i == 10 then Outcome.ok else Outcome.authErr AuthErrorKind.wrongCredential) ∈
        (processResponses
          [(11, Outcome.authErr AuthErrorKind.wrongCredential), (10, Outcome.ok)]
          ⟨[10, 11], [], false⟩).resolved) ∧
    (∀ p ∈ (processResponses
          [(11, Outcome.authErr AuthErrorKind.wrongCredential), (10, Outcome.ok)]
          ⟨[10, 11], [], false⟩).resolved,
      p.2 = (if p.1 == 10 then Outcome.ok else Outcome.authErr AuthErrorKind.wrongCredential)) :=
  correlation_under_reordering [10, 11]
    (fun i => if i == 10 then Outcome.ok else Outcome.authErr AuthErrorKind.wrongCredential)
    [(11, Outcome.authErr AuthErrorKind.wrongCredential), (10, Outcome.ok)]
    (by decide) (by decide)
